import Mathlib

/-!
# Verification of the OOP_chess rule engine

A shallow embedding of `OOP_chess.py`: the piece model, the generic `Board`
(path clearance, move legality, castling, make_move, the check heuristic),
the `CheckersBoard` and `ExtendedBoard` variants, the move-handling branch of
the `Game` controller, and a reference-accurate model of the history stack
(`save_state`, `undo_move`) that tracks row-object aliasing.

Conventions:
* Coordinates are `Int × Int` `(row, col)`, matching the source's `(x, y)`.
* Dynamic class dispatch becomes a match on a `Kind` tag.  `Snake` subclasses
  `King` in the source, so every `isinstance(_, King)` test also matches the
  snake kind.
* `Board.is_path_clear` falls off the end of the function (returning `None`)
  for non-straight, non-diagonal geometries, so it is modelled as
  `Option Bool`; Python truthiness of the result is `truthy`.
* Operations that raise on a missing source piece return `Option`, with
  `none` for the fault.
* Grid cells are read through `getCell`, which is faithful to the source for
  in-bounds coordinates; theorems about arbitrary boards carry in-bounds
  hypotheses for the cells (and, where a scan consults stored piece
  positions, for those positions) so that only the faithful domain is used.
-/

namespace OOPChess

/-- Piece colors, the source's strings 'white' and 'black'. -/
inductive Color
  | white
  | black
deriving DecidableEq

/-- Piece kinds: one tag per concrete Python class of the source. -/
inductive Kind
  | checkersFig
  | ghost
  | pawn
  | rook
  | knight
  | bishop
  | queen
  | king
  | snake
deriving DecidableEq

/-- Board coordinates as used by the source: a (row, col) pair of integers. -/
abbrev Pos := Int × Int

/-- A figure: the base-class attributes color, position and the kill flag,
plus the concrete class tag. -/
structure Figure where
  kind : Kind
  color : Color
  position : Pos
  kill : Bool
deriving DecidableEq

/-- Bounds predicate `0 <= x < 8 and 0 <= y < 8` used throughout the source. -/
abbrev InB (p : Pos) : Prop :=
  0 ≤ p.1 ∧ p.1 < 8 ∧ 0 ≤ p.2 ∧ p.2 < 8

/-- Boolean form of the bounds test. -/
def inBoundsB (p : Pos) : Bool :=
  decide (InB p)

/-- First-occurrence removal, as Python's `list.remove`. -/
def removeFirst : List Pos → Pos → List Pos
  | [], _ => []
  | x :: xs, v => if x = v then xs else x :: removeFirst xs v

/-- The Pawn's bounds-filtering loop, which removes elements from the list
being iterated (`for move in possible_moves: ... possible_moves.remove(move)`).
Python iterates by index, so a removal shifts the next candidate under the
cursor; the fuel is the starting length, an upper bound on the iterations. -/
def pyRemoveLoop : Nat → List Pos → Nat → List Pos
  | 0, l, _ => l
  | fuel + 1, l, i =>
    match l[i]? with
    | none => l
    | some x =>
      if inBoundsB x then pyRemoveLoop fuel l (i + 1)
      else pyRemoveLoop fuel (removeFirst l x) (i + 1)

/-- Integer interval `[lo, hi)` as a list, as Python's `range(lo, hi)`. -/
def intRange (lo hi : Int) : List Int :=
  (List.range (hi - lo).toNat).map (fun i => lo + i)

/-- Rook targets: for each `i` in `range(8)`, `(i, y)` when `i != x` and
`(x, i)` when `i != y`, in that interleaved order. -/
def rookLines (x y : Int) : List Pos :=
  (List.range 8).flatMap (fun i =>
    (if (i : Int) ≠ x then [(((i : Int), y) : Pos)] else []) ++
      (if (i : Int) ≠ y then [((x, (i : Int)) : Pos)] else []))

/-- Bishop targets: per diagonal direction, steps outward until the first
out-of-bounds cell stops the walk (the source's `while True ... break`). -/
def bishopRays (x y : Int) : List Pos :=
  ([(-1, -1), (-1, 1), (1, -1), (1, 1)] : List Pos).flatMap (fun d =>
    ((List.range 8).map
      (fun i => ((x + d.1 * ((i : Int) + 1), y + d.2 * ((i : Int) + 1)) : Pos))).takeWhile
        inBoundsB)

/-- The eight king-adjacent cells, in source order; also the Snake geometry
(Snake inherits King.get_possible_moves). -/
def kingRing (x y : Int) : List Pos :=
  [(x + 1, y), (x - 1, y), (x, y + 1), (x, y - 1), (x + 1, y + 1),
    (x - 1, y - 1), (x + 1, y - 1), (x - 1, y + 1)]

/-- Candidate targets per kind: one dispatch on the class tag, each branch a
transcription of that class's `get_possible_moves`. -/
def get_possible_moves (f : Figure) : List Pos :=
  let x := f.position.1
  let y := f.position.2
  match f.kind with
  | .checkersFig =>
    if f.color = .white then [(x - 1, y + 1), (x - 1, y - 1)]
    else [(x + 1, y + 1), (x + 1, y - 1)]
  | .ghost =>
    ([(1, 0), (-1, 0), (0, 1), (0, -1)] : List Pos).flatMap (fun d =>
      ((List.range 7).map
        (fun i => ((x + d.1 * ((i : Int) + 1), y + d.2 * ((i : Int) + 1)) : Pos))).takeWhile
          inBoundsB)
  | .pawn =>
    let base : List Pos := if f.color = .white then [(x - 1, y)] else [(x + 1, y)]
    let base : List Pos :=
      if x = 6 ∧ f.color = .white then base ++ [(x - 2, y)]
      else if x = 1 ∧ f.color = .black then base ++ [(x + 2, y)]
      else base
    pyRemoveLoop base.length base 0
  | .rook => rookLines x y
  | .knight =>
    [(x + 1, y + 2), (x + 2, y + 1), (x + 1, y - 2), (x + 2, y - 1), (x - 1, y + 2),
      (x - 2, y + 1), (x - 2, y - 1), (x - 1, y - 2)]
  | .bishop => bishopRays x y
  | .queen => rookLines x y ++ bishopRays x y
  | .king => kingRing x y
  | .snake => kingRing x y

/-- The 8×8 grid of optional occupants (`Board.field`). -/
abbrev Grid := Fin 8 → Fin 8 → Option Figure

/-- A grid with every cell empty. -/
def emptyGrid : Grid := fun _ _ => none

/-- Read `field[p.1][p.2]`; faithful to the source for in-bounds coordinates
(the source is never indexed out of bounds along the paths verified here). -/
def getCell (g : Grid) (p : Pos) : Option Figure :=
  if h : InB p then
    g ⟨p.1.toNat, by omega⟩ ⟨p.2.toNat, by omega⟩
  else none

/-- Write `field[p.1][p.2] = v` (a no-op out of bounds; every write performed
by the source paths verified here is in bounds). -/
def setCellO (g : Grid) (p : Pos) (v : Option Figure) : Grid :=
  fun r c => if (((r.val : Int), (c.val : Int)) : Pos) = p then v else g r c

/-- Python's `target in possible_moves` membership test. -/
def memB (p : Pos) (l : List Pos) : Bool :=
  l.any (fun q => decide (q = p))

/-- Python truthiness of `is_path_clear`'s result (`None` is falsy). -/
def truthy : Option Bool → Bool
  | none => false
  | some b => b

/-- The strictly intervening cells of a diagonal walk from `(a1, b1)` toward
`(a2, b2)`: the source steps by `(±1, ±1)` until it reaches the target, so
with `n = |a1 - a2|` it visits steps `1 .. n - 1`. -/
def diagCells (a1 b1 a2 b2 : Int) : List Pos :=
  (List.range ((a1 - a2).natAbs - 1)).map (fun (k : Nat) =>
    ((a1 + (if a2 > a1 then 1 else -1) * ((k : Int) + 1),
      b1 + (if b2 > b1 then 1 else -1) * ((k : Int) + 1)) : Pos))

/-- Board.is_path_clear: straight rows/columns and diagonals check all strictly
intervening cells; any other geometry falls off the end (`None`). -/
def is_path_clear (g : Grid) (a1 b1 a2 b2 : Int) : Option Bool :=
  if a1 = a2 then
    some ((intRange (min b1 b2 + 1) (max b1 b2)).all (fun col => (getCell g (a1, col)).isNone))
  else if b1 = b2 then
    some ((intRange (min a1 a2 + 1) (max a1 a2)).all (fun row => (getCell g (row, b1)).isNone))
  else if (a1 - a2).natAbs = (b1 - b2).natAbs then
    some ((diagCells a1 b1 a2 b2).all (fun p => (getCell g p).isNone))
  else none

/-- The isinstance gate of Board.check_move: every chess class, not the
checkers figure. -/
def chessKindB (k : Kind) : Bool :=
  match k with
  | .pawn | .rook | .bishop | .knight | .king | .queen | .ghost | .snake => true
  | .checkersFig => false

/-- The isinstance gate of Board.is_game_over: `(Pawn, Rook, Bishop, Knight,
King, Queen)`; Snake matches through its King superclass, Ghost and the
checkers figure do not match. -/
def scannedKindB (k : Kind) : Bool :=
  match k with
  | .pawn | .rook | .bishop | .knight | .king | .snake | .queen => true
  | .ghost | .checkersFig => false

/-- `isinstance(piece, King)`: King or its subclass Snake. -/
def kingKindB (k : Kind) : Bool :=
  match k with
  | .king | .snake => true
  | _ => false

/-- The two capture diagonals Board.check_move substitutes for a pawn's
pseudo-moves, built from the source cell `(a1, b1)`. -/
def pawnCaptureMoves (c : Color) (s : Pos) : List Pos :=
  if c = .white then [(s.1 - 1, s.2 + 1), (s.1 - 1, s.2 - 1)]
  else [(s.1 + 1, s.2 + 1), (s.1 + 1, s.2 - 1)]

/-- The target list Board.check_move tests membership against: the mover's
pseudo-moves, replaced wholesale by the two capture diagonals when the mover
is a Pawn and the destination holds an enemy piece of a chess class. -/
def board_target_moves (g : Grid) (s t : Pos) (figure : Figure) : List Pos :=
  match getCell g t with
  | some enemy =>
    if figure.kind = .pawn ∧ chessKindB enemy.kind = true ∧ figure.color ≠ enemy.color then
      pawnCaptureMoves figure.color s
    else get_possible_moves figure
  | none => get_possible_moves figure

/-- Board.check_move. -/
def check_move (g : Grid) (s t : Pos) : Bool :=
  match getCell g s with
  | none => false
  | some figure =>
    if chessKindB figure.kind then
      if memB t (board_target_moves g s t figure) then
        if figure.kind = .knight ∨ figure.kind = .ghost then true
        else truthy (is_path_clear g s.1 s.2 t.1 t.2)
      else false
    else false

/-- Board.if_rock_possible: a King (or Snake, via isinstance) of the player's
color at column 4 and a Rook of that color at column 7 of the home row, with
the path between them clear. -/
def if_rock_possible (g : Grid) (c : Color) : Bool :=
  match c with
  | .white =>
    match getCell g (0, 4), getCell g (0, 7) with
    | some k, some r =>
      kingKindB k.kind && decide (k.color = Color.white) && decide (r.kind = Kind.rook) &&
        decide (r.color = Color.white) && truthy (is_path_clear g 0 4 0 7)
    | _, _ => false
  | .black =>
    match getCell g (7, 4), getCell g (7, 7) with
    | some k, some r =>
      kingKindB k.kind && decide (k.color = Color.black) && decide (r.kind = Kind.rook) &&
        decide (r.color = Color.black) && truthy (is_path_clear g 7 4 7 7)
    | _, _ => false

/-- Board.rock: the four cell writes, in source order (king to column 6, rook
to column 5 of the home row; positions stored on the pieces are not touched). -/
def rock (g : Grid) (c : Color) : Grid :=
  match c with
  | .white =>
    let g1 := setCellO g (0, 6) (getCell g (0, 4))
    let g2 := setCellO g1 (0, 4) none
    let g3 := setCellO g2 (0, 5) (getCell g2 (0, 7))
    setCellO g3 (0, 7) none
  | .black =>
    let g1 := setCellO g (7, 6) (getCell g (7, 4))
    let g2 := setCellO g1 (7, 4) none
    let g3 := setCellO g2 (7, 5) (getCell g2 (7, 7))
    setCellO g3 (7, 7) none

/-- Board.make_move as a grid transformer; `none` models the AttributeError
the source raises when the source cell is empty.  The snake's kill flag is
set when it lands on any occupied cell, before the piece is written; the
history push the source also performs is modelled on `RefBoard` below. -/
def make_move (g : Grid) (s t : Pos) : Option Grid :=
  match getCell g s with
  | none => none
  | some figure =>
    let figure :=
      if (getCell g t).isSome && decide (figure.kind = Kind.snake) then
        { figure with kill := true }
      else figure
    let g1 := setCellO g t (some { figure with position := t })
    some (setCellO g1 s none)

/-- Turn alternation of the controller. -/
def otherColor : Color → Color
  | .white => .black
  | .black => .white

/-- The controller's `field[x][y].kill = False` write. -/
def setKillFalse (g : Grid) (p : Pos) : Grid :=
  match getCell g p with
  | some f => setCellO g p (some { f with kill := false })
  | none => g

/-- One round of Game.play's move-handling branch, after the two cells have
been parsed: validate with the board's check_move, on success apply make_move
and pass or keep the turn from the moved piece's kill flag, on failure report
and leave everything unchanged.  The check and move functions are parameters
because the source resolves them dynamically on `self.board`; `none` models a
fault inside the branch. -/
def gameMoveStep (check : Grid → Pos → Pos → Bool) (mover : Grid → Pos → Pos → Option Grid)
    (g : Grid) (player : Color) (s t : Pos) : Option (Grid × Color × Bool) :=
  if check g s t then
    match mover g s t with
    | none => none
    | some g1 =>
      match getCell g1 t with
      | none => none
      | some f =>
        if f.kill = false then some (setKillFalse g1 t, otherColor player, true)
        else some (setKillFalse g1 t, player, true)
  else some (g, player, false)

/-- CheckersBoard.check_move: only checkers men and (promoted) bishops may
move; a bishop needs only geometry; a man moves either by a 2×2 diagonal jump
over a non-clear path, or by a pseudo-move with a clear path. -/
def checkers_check_move (g : Grid) (s t : Pos) : Bool :=
  match getCell g s with
  | none => false
  | some figure =>
    if figure.kind = .checkersFig ∨ figure.kind = .bishop then
      if figure.kind = .bishop then memB t (get_possible_moves figure)
      else
        if (t.1 - s.1).natAbs = 2 ∧ (t.2 - s.2).natAbs = 2 ∧
            truthy (is_path_clear g s.1 s.2 t.1 t.2) = false then
          true
        else memB t (get_possible_moves figure) && truthy (is_path_clear g s.1 s.2 t.1 t.2)
    else false

/-- The capture sweep CheckersBoard.make_move performs for a Bishop: of the
source's four branches only the first iterates a non-empty range (the second
walks `range(a1+1, a2)` with `a1 > a2`, the last two walk a rising range with
step `-1`; all three are empty, and the fourth repeats the first condition). -/
def bishopSweep (g : Grid) (a1 b1 a2 b2 : Int) : Grid :=
  if a1 < a2 ∧ b1 < b2 then
    (intRange (a1 + 1) a2).foldl (fun gr row => setCellO gr (row, b1 + (row - a1)) none) g
  else g

/-- The capture phase of CheckersBoard.make_move: when the path is not clear,
a man clears the midpoint cell `((a1+a2)//2, (b1+b2)//2)` and gains the kill
flag, a bishop sweeps its diagonal and gains the flag, anything else passes
through unchanged. -/
def checkers_capture_step (g : Grid) (figure : Figure) (s t : Pos) : Grid × Figure :=
  if truthy (is_path_clear g s.1 s.2 t.1 t.2) = false then
    if figure.kind = .checkersFig then
      (setCellO g ((s.1 + t.1) / 2, (s.2 + t.2) / 2) none, { figure with kill := true })
    else if figure.kind = .bishop then
      (bishopSweep g s.1 s.2 t.1 t.2, { figure with kill := true })
    else (g, figure)
  else (g, figure)

/-- The relocation phase of CheckersBoard.make_move: write the piece (with
updated stored position) to the destination, then clear the source cell. -/
def checkers_relocate (p : Grid × Figure) (s t : Pos) : Grid :=
  setCellO (setCellO p.1 t (some { p.2 with position := t })) s none

/-- CheckersBoard.make_move: the capture phase, the relocation, and promotion
of a piece reaching the far row for its color into a fresh Bishop.  `none`
models the fault on an empty source cell. -/
def checkers_make_move (g : Grid) (s t : Pos) : Option Grid :=
  match getCell g s with
  | none => none
  | some figure =>
    let gf := checkers_capture_step g figure s t
    let g2 := checkers_relocate gf s t
    if (gf.2.color = .white ∧ t.1 = 0) ∨ (gf.2.color = .black ∧ t.1 = 7) then
      some (setCellO g2 t (some ⟨Kind.bishop, gf.2.color, t, false⟩))
    else some g2

/-- The 64 cells in the row-major order of the source's nested loops. -/
def cellList : List Pos :=
  (List.range 8).flatMap (fun r => (List.range 8).map (fun c => (((r : Int), (c : Int)) : Pos)))

/-- The scan of CheckersBoard.is_game_over: remember which colors still have
men, and return False the moment any man has a check_move-accepted
pseudo-move; when the scan completes, the game is over iff it is not the case
that both colors still have men. -/
def checkersGameOverScan (g : Grid) : List Pos → Bool → Bool → Bool
  | [], blackSeen, whiteSeen => !(blackSeen && whiteSeen)
  | p :: rest, blackSeen, whiteSeen =>
    match getCell g p with
    | some figure =>
      if figure.kind = .checkersFig then
        let whiteSeen := whiteSeen || decide (figure.color = Color.white)
        let blackSeen := blackSeen || decide (figure.color = Color.black)
        if (get_possible_moves figure).any (fun m => checkers_check_move g p m) then false
        else checkersGameOverScan g rest blackSeen whiteSeen
      else checkersGameOverScan g rest blackSeen whiteSeen
    | none => checkersGameOverScan g rest blackSeen whiteSeen

/-- CheckersBoard.is_game_over. -/
def checkers_is_game_over (g : Grid) : Bool :=
  checkersGameOverScan g cellList false false

/-- The king-locating scan of Board.is_game_over (the last King of each color
in row-major order wins; Snake matches isinstance King). -/
def findKingsScan (g : Grid) : List Pos → Option Pos → Option Pos → Option Pos × Option Pos
  | [], bk, wk => (bk, wk)
  | p :: rest, bk, wk =>
    match getCell g p with
    | some piece =>
      if kingKindB piece.kind then
        if piece.color = .black then findKingsScan g rest (some p) wk
        else findKingsScan g rest bk (some p)
      else findKingsScan g rest bk wk
    | none => findKingsScan g rest bk wk

/-- The threat-collecting scan of Board.is_game_over: every scanned-kind piece
with a truthy clear path to the enemy king's recorded cell contributes its
whole pseudo-move list to the enemy's risk set.  Subscripting a missing
king's position (`None[0]`) is the source's TypeError, modelled as `none`. -/
def riskScan (g : Grid) (bk wk : Option Pos) :
    List Pos → List Pos → List Pos → Option (List Pos × List Pos)
  | [], rb, rw => some (rb, rw)
  | p :: rest, rb, rw =>
    match getCell g p with
    | some piece =>
      if scannedKindB piece.kind then
        if piece.color = .white then
          match bk with
          | none => none
          | some k =>
            if truthy (is_path_clear g p.1 p.2 k.1 k.2) then
              riskScan g bk wk rest (rb ++ get_possible_moves piece) rw
            else riskScan g bk wk rest rb rw
        else
          match wk with
          | none => none
          | some k =>
            if truthy (is_path_clear g p.1 p.2 k.1 k.2) then
              riskScan g bk wk rest rb (rw ++ get_possible_moves piece)
            else riskScan g bk wk rest rb rw
      else riskScan g bk wk rest rb rw
    | none => riskScan g bk wk rest rb rw

/-- The white-side tail of Board.is_game_over, reached only when black was not
found to be in check. -/
def is_game_over_white (g : Grid) (wk : Option Pos) (rw : List Pos) : Option Bool :=
  match wk with
  | some wkp =>
    if memB wkp rw then
      match getCell g wkp with
      | some wking => some ((get_possible_moves wking).all (fun m => memB m rw))
      | none => none
    else some false
  | none => some false

/-- Board.is_game_over; `none` models the TypeError described at `riskScan`. -/
def is_game_over (g : Grid) : Option Bool :=
  let ks := findKingsScan g cellList none none
  match riskScan g ks.1 ks.2 cellList [] [] with
  | none => none
  | some rs =>
    match ks.1 with
    | some bkp =>
      if memB bkp rs.1 then
        match getCell g bkp with
        | some bking => some ((get_possible_moves bking).all (fun m => memB m rs.1))
        | none => none
      else is_game_over_white g ks.2 rs.2
    | none => is_game_over_white g ks.2 rs.2

/-- The back-row piece classes of Board.setup_board, indexed by column. -/
def backRowKind (c : Nat) : Kind :=
  match c with
  | 0 => .rook
  | 1 => .knight
  | 2 => .bishop
  | 3 => .queen
  | 4 => .king
  | 5 => .bishop
  | 6 => .knight
  | _ => .rook

/-- Board.setup_board: pawns on rows 1 and 6, back rows on rows 0 and 7. -/
def chessSetup : Grid :=
  let g := (List.range 8).foldl (fun gr (col : Nat) =>
    setCellO (setCellO gr (1, (col : Int)) (some ⟨.pawn, .black, (1, (col : Int)), false⟩))
      (6, (col : Int)) (some ⟨.pawn, .white, (6, (col : Int)), false⟩)) emptyGrid
  (List.range 8).foldl (fun gr (col : Nat) =>
    setCellO (setCellO gr (0, (col : Int)) (some ⟨backRowKind col, .black, (0, (col : Int)), false⟩))
      (7, (col : Int)) (some ⟨backRowKind col, .white, (7, (col : Int)), false⟩)) g

/-- CheckersBoard.setup_board, transcribed exactly: note that on even columns
the man written to cell `(7, col)` is constructed with stored position
`(6, col)` (source line `self.field[7][col] = CheckersFigure("white", (6, col))`). -/
def checkersSetup : Grid :=
  (List.range 8).foldl (fun gr (col : Nat) =>
    if col % 2 ≠ 0 then
      setCellO (setCellO (setCellO gr
        (0, (col : Int)) (some ⟨.checkersFig, .black, (0, (col : Int)), false⟩))
        (2, (col : Int)) (some ⟨.checkersFig, .black, (2, (col : Int)), false⟩))
        (6, (col : Int)) (some ⟨.checkersFig, .white, (6, (col : Int)), false⟩)
    else
      setCellO (setCellO (setCellO gr
        (7, (col : Int)) (some ⟨.checkersFig, .white, (6, (col : Int)), false⟩))
        (1, (col : Int)) (some ⟨.checkersFig, .black, (1, (col : Int)), false⟩))
        (5, (col : Int)) (some ⟨.checkersFig, .white, (5, (col : Int)), false⟩)) emptyGrid

/-- ExtendedBoard.setup_board: the chess setup plus four checkers men, four
ghosts and four snakes, written in source order. -/
def extendedSetup : Grid :=
  setCellO (setCellO (setCellO (setCellO (setCellO (setCellO (setCellO (setCellO
    (setCellO (setCellO (setCellO (setCellO chessSetup
      (5, 2) (some ⟨.checkersFig, .white, (5, 2), false⟩))
      (5, 5) (some ⟨.checkersFig, .white, (5, 5), false⟩))
      (2, 2) (some ⟨.checkersFig, .black, (2, 2), false⟩))
      (2, 5) (some ⟨.checkersFig, .black, (2, 5), false⟩))
      (5, 1) (some ⟨.ghost, .white, (5, 1), false⟩))
      (5, 6) (some ⟨.ghost, .white, (5, 6), false⟩))
      (2, 1) (some ⟨.ghost, .black, (2, 1), false⟩))
      (2, 6) (some ⟨.ghost, .black, (2, 6), false⟩))
      (5, 0) (some ⟨.snake, .white, (5, 0), false⟩))
      (5, 7) (some ⟨.snake, .white, (5, 7), false⟩))
      (2, 0) (some ⟨.snake, .black, (2, 0), false⟩))
      (2, 7) (some ⟨.snake, .black, (2, 7), false⟩)

/-!
## Reference model of the board with its history stack

Python rows are mutable list objects shared by reference.  `RefBoard` makes
that explicit: `store` is the heap of row objects, `fieldRows` the row ids
the live `field` list holds, and `history` the row ids held by each stored
snapshot.  `save_state`'s `[row.copy() for row in self.field]` allocates
fresh row objects; `undo_move`'s `self.field = self.history[-1]` makes the
live field alias the snapshot's row objects.  Pieces are modelled by value
(the source shares piece objects too, which only adds further aliasing). -/

/-- The heap of row objects plus the field and history views into it. -/
structure RefBoard where
  store : List (List (Option Figure))
  fieldRows : List Nat
  history : List (List Nat)
deriving DecidableEq

/-- Dereference a row id in the heap. -/
def storeRow (st : List (List (Option Figure))) (rid : Nat) : List (Option Figure) :=
  (st[rid]?).getD []

/-- Read cell (r, c) of the live field. -/
def refCell (b : RefBoard) (r c : Nat) : Option Figure :=
  ((storeRow b.store ((b.fieldRows[r]?).getD 0))[c]?).getD none

/-- Board.save_state: copy every live row into a fresh row object and append
the list of fresh ids to the history. -/
def save_state (b : RefBoard) : RefBoard :=
  let n := b.store.length
  { store := b.store ++ b.fieldRows.map (fun rid => storeRow b.store rid)
    fieldRows := b.fieldRows
    history := b.history ++ [(List.range b.fieldRows.length).map (fun i => n + i)] }

/-- Board.undo_move: with more than one snapshot, pop the last and point the
live field at the row objects of the new last snapshot; otherwise a no-op. -/
def undo_move (b : RefBoard) : RefBoard :=
  if b.history.length > 1 then
    let h := b.history.dropLast
    { b with history := h, fieldRows := (h.getLast?).getD b.fieldRows }
  else b

/-- Mutate cell c of the row object rid in place. -/
def storeWrite (st : List (List (Option Figure))) (rid c : Nat) (v : Option Figure) :
    List (List (Option Figure)) :=
  st.set rid ((storeRow st rid).set c v)

/-- Board.make_move on the reference model: read the moving piece, write it
(with updated position, and the snake's kill flag when capturing) into the
destination row object, clear the source cell, then save_state.  `none`
models the fault on an empty source cell. -/
def ref_make_move (b : RefBoard) (s t : Nat × Nat) : Option RefBoard :=
  match refCell b s.1 s.2 with
  | none => none
  | some figure =>
    let figure :=
      if (refCell b t.1 t.2).isSome && decide (figure.kind = Kind.snake) then
        { figure with kill := true }
      else figure
    let ridT := (b.fieldRows[t.1]?).getD 0
    let st1 := storeWrite b.store ridT t.2 (some { figure with position := ((t.1 : Int), (t.2 : Int)) })
    let ridS := (b.fieldRows[s.1]?).getD 0
    let st2 := storeWrite st1 ridS s.2 none
    some (save_state { b with store := st2 })

/-- The chess setup as heap row objects. -/
def chessRows : List (List (Option Figure)) :=
  (List.range 8).map (fun r => (List.range 8).map (fun c => getCell chessSetup ((r : Int), (c : Int))))

/-- Board.__init__: build the field rows, run setup, save the initial
snapshot. -/
def initBoard : RefBoard :=
  save_state { store := chessRows, fieldRows := List.range 8, history := [] }

/-- Read cell (r, c) of stored snapshot number i. -/
def snapshotCell (b : RefBoard) (i r c : Nat) : Option Figure :=
  ((storeRow b.store ((((b.history[i]?).getD [])[r]?).getD 0))[c]?).getD none

/-!
## General lemmas about the embedding
-/

lemma truthy_eq_true {o : Option Bool} : truthy o = true ↔ o = some true := by
  cases o with
  | none => simp [truthy]
  | some b => simp [truthy]

lemma memB_eq_true {p : Pos} {l : List Pos} : memB p l = true ↔ p ∈ l := by
  simp [memB, List.any_eq_true]

lemma getCell_setCellO (g : Grid) (p q : Pos) (v : Option Figure) :
    getCell (setCellO g p v) q = if InB q ∧ q = p then v else getCell g q := by
  obtain ⟨qa, qb⟩ := q
  by_cases hq : InB (qa, qb)
  · rw [getCell, dif_pos hq, setCellO]
    obtain ⟨h1, h2, h3, h4⟩ := hq
    have ha : ((qa.toNat : Int)) = qa := Int.toNat_of_nonneg h1
    have hb : ((qb.toNat : Int)) = qb := Int.toNat_of_nonneg h3
    simp only [ha, hb]
    by_cases he : ((qa, qb) : Pos) = p
    · rw [if_pos he, if_pos ⟨⟨h1, h2, h3, h4⟩, he⟩]
    · rw [if_neg he, if_neg (by simp [he]), getCell, dif_pos ⟨h1, h2, h3, h4⟩]
  · rw [getCell, dif_neg hq, if_neg (by simp [hq]), getCell, dif_neg hq]

lemma is_path_clear_adjacent_diag (g : Grid) {a1 b1 a2 b2 : Int}
    (h1 : (a1 - a2).natAbs = 1) (h2 : (b1 - b2).natAbs = 1) :
    is_path_clear g a1 b1 a2 b2 = some true := by
  have hne1 : a1 ≠ a2 := by omega
  have hne2 : b1 ≠ b2 := by omega
  rw [is_path_clear, if_neg hne1, if_neg hne2, if_pos (h1.trans h2.symm), diagCells,
    show (a1 - a2).natAbs - 1 = 0 from by omega]
  simp

lemma board_target_moves_of_ne_pawn {g : Grid} {s t : Pos} {fig : Figure}
    (h : fig.kind ≠ .pawn) : board_target_moves g s t fig = get_possible_moves fig := by
  rw [board_target_moves]
  cases getCell g t with
  | none => rfl
  | some e => simp [h]

/-!
## The claims
-/

/-- C1: for every board and cells, a Knight or Ghost at the source whose
geometry contains the target is accepted by Board.check_move on any
occupancy of the rest of the board; every other kind is accepted only when
the target is in its (possibly pawn-overridden) target list and
is_path_clear returns True. -/
theorem claim1_leapers_bypass_path_clearance (g : Grid) (s t : Pos) (fig : Figure)
    (hs : InB s) (ht : InB t) (hfig : getCell g s = some fig) :
    ((fig.kind = .knight ∨ fig.kind = .ghost) →
      memB t (get_possible_moves fig) = true → check_move g s t = true) ∧
    ((fig.kind ≠ .knight ∧ fig.kind ≠ .ghost) → check_move g s t = true →
      memB t (board_target_moves g s t fig) = true ∧
        is_path_clear g s.1 s.2 t.1 t.2 = some true) := by
  constructor
  · intro hk hmem
    have hck : chessKindB fig.kind = true := by
      rcases hk with h | h <;> rw [h] <;> rfl
    have hnp : fig.kind ≠ .pawn := by
      rcases hk with h | h <;> rw [h] <;> intro hc <;> exact Kind.noConfusion hc
    rw [check_move]
    simp only [hfig]
    rw [if_pos hck, board_target_moves_of_ne_pawn hnp, if_pos hmem, if_pos hk]
  · intro hk hcm
    rw [check_move] at hcm
    simp only [hfig] at hcm
    by_cases hck : chessKindB fig.kind
    · rw [if_pos hck] at hcm
      by_cases hmem : memB t (board_target_moves g s t fig)
      · rw [if_pos hmem, if_neg (by rintro (h | h) <;> [exact hk.1 h; exact hk.2 h])] at hcm
        exact ⟨hmem, truthy_eq_true.mp hcm⟩
      · rw [if_neg hmem] at hcm
        exact absurd hcm (by simp)
    · rw [if_neg hck] at hcm
      exact absurd hcm (by simp)

/-- Witness for C1: a white knight at (4, 4) jumps to (6, 5) over a fully
occupied neighbourhood, and a blocked white rook fails both conditions. -/
theorem claim1_witness :
    check_move
      (setCellO (setCellO (setCellO emptyGrid
        (4, 4) (some ⟨.knight, .white, (4, 4), false⟩))
        (5, 4) (some ⟨.pawn, .black, (5, 4), false⟩))
        (5, 5) (some ⟨.pawn, .black, (5, 5), false⟩))
      (4, 4) (6, 5) = true :=
  (claim1_leapers_bypass_path_clearance _ (4, 4) (6, 5) ⟨.knight, .white, (4, 4), false⟩
    (by decide) (by decide) (by decide)).1 (Or.inl rfl) (by decide)

/-- Counterexample for C2: on the extended variant a destination can hold an
opposing CheckersFigure, and then Board.check_move does not switch the white
pawn at (6, 4) to its capture diagonals: the diagonal capture onto the enemy
man at (5, 3) is rejected. -/
def gridC2 : Grid :=
  setCellO (setCellO emptyGrid (6, 4) (some ⟨.pawn, .white, (6, 4), false⟩))
    (5, 3) (some ⟨.checkersFig, .black, (5, 3), false⟩)

/-- C2 counterexample: the destination (5, 3) holds an opposing piece (a
black checkers man), yet check_move((6,4),(5,3)) is false, against the
claim's promise that any opposing occupant triggers the diagonal-capture
override. -/
theorem claim2_counterexample :
    getCell gridC2 (6, 4) = some ⟨.pawn, .white, (6, 4), false⟩ ∧
    getCell gridC2 (5, 3) = some ⟨.checkersFig, .black, (5, 3), false⟩ ∧
    Figure.color ⟨.checkersFig, .black, (5, 3), false⟩ ≠
      Figure.color ⟨.pawn, .white, (6, 4), false⟩ ∧
    check_move gridC2 (6, 4) (5, 3) = false := by
  refine ⟨by decide, by decide, by decide, by decide⟩

/-- C2 (amended): the pawn-capture override fires exactly when the
destination holds an opposing piece of a chess class (a CheckersFigure
occupant does not trigger it); under the override, check_move accepts
precisely the two forward-diagonal cells. -/
theorem claim2_pawn_capture_override (g : Grid) (s t : Pos) (fig enemy : Figure)
    (hs : InB s) (ht : InB t) (hfig : getCell g s = some fig) (hk : fig.kind = .pawn)
    (he : getCell g t = some enemy) (hek : chessKindB enemy.kind = true)
    (hc : fig.color ≠ enemy.color) :
    check_move g s t = true ↔ memB t (pawnCaptureMoves fig.color s) = true := by
  have hbt : board_target_moves g s t fig = pawnCaptureMoves fig.color s := by
    rw [board_target_moves]
    simp only [he]
    rw [if_pos ⟨hk, hek, hc⟩]
  have hck : chessKindB fig.kind = true := by rw [hk]; rfl
  have hnl : ¬(fig.kind = .knight ∨ fig.kind = .ghost) := by
    rw [hk]; rintro (h | h) <;> exact Kind.noConfusion h
  rw [check_move]
  simp only [hfig]
  rw [if_pos hck, hbt]
  constructor
  · intro hcm
    by_cases hmem : memB t (pawnCaptureMoves fig.color s)
    · exact hmem
    · rw [if_neg hmem] at hcm
      exact absurd hcm (by simp)
  · intro hmem
    rw [if_pos hmem, if_neg hnl]
    have hdiag : (s.1 - t.1).natAbs = 1 ∧ (s.2 - t.2).natAbs = 1 := by
      have := memB_eq_true.mp hmem
      rw [pawnCaptureMoves] at this
      by_cases hcw : fig.color = .white
      · rw [if_pos hcw] at this
        rcases List.mem_pair.mp this with h | h <;> rw [h] <;> constructor <;> simp
      · rw [if_neg hcw] at this
        rcases List.mem_pair.mp this with h | h <;> rw [h] <;> constructor <;> simp
    rw [truthy_eq_true, is_path_clear_adjacent_diag g hdiag.1 hdiag.2]

/-- Witness for C2 (amended): a white pawn at (6, 4) with an enemy pawn at
(5, 3) is accepted exactly by the capture-diagonal membership. -/
theorem claim2_witness :
    check_move
      (setCellO (setCellO emptyGrid (6, 4) (some ⟨.pawn, .white, (6, 4), false⟩))
        (5, 3) (some ⟨.pawn, .black, (5, 3), false⟩))
      (6, 4) (5, 3) = true :=
  (claim2_pawn_capture_override _ (6, 4) (5, 3)
    ⟨.pawn, .white, (6, 4), false⟩ ⟨.pawn, .black, (5, 3), false⟩
    (by decide) (by decide) (by decide) rfl (by decide) (by decide) (by decide)).mpr
    (by decide)

/-- The board after one pawn move from (6, 0) to (5, 0). -/
def c3Board1 : RefBoard := (ref_make_move initBoard (6, 0) (5, 0)).getD initBoard

/-- The board after that move, an undo, and a second pawn move from (6, 1)
to (5, 1). -/
def c3Board2 : RefBoard := (ref_make_move (undo_move c3Board1) (6, 1) (5, 1)).getD initBoard

/-- C3 (code bug): the sequence make_move, undo_move, make_move mutates the
initial history snapshot.  undo_move assigns `self.field = self.history[-1]`,
so after the undo the live rows alias the snapshot's row objects; the second
make_move then rewrites them.  Snapshot 0 is the same stored object before
and after (same row ids), yet its cell (6, 1) held the white pawn right
after `Board.__init__` and is empty after the second move (the pawn now sits
in its cell (5, 1)); both moves completed normally. -/
theorem claim3_snapshot_mutated_by_move_after_undo :
    (ref_make_move initBoard (6, 0) (5, 0)).isSome = true ∧
    (ref_make_move (undo_move c3Board1) (6, 1) (5, 1)).isSome = true ∧
    c3Board2.history[0]? = initBoard.history[0]? ∧
    snapshotCell initBoard 0 6 1 = some ⟨.pawn, .white, (6, 1), false⟩ ∧
    snapshotCell c3Board2 0 6 1 = none ∧
    snapshotCell c3Board2 0 5 1 = some ⟨.pawn, .white, (5, 1), false⟩ := by
  refine ⟨by decide, by decide, by decide, by decide, by decide, by decide⟩

/-- C4 (code bug): CheckersBoard.setup_board constructs the white man it
places at cell (7, 0) with stored position (6, 0), so right after setup the
piece's stored position differs from the cell holding it. -/
theorem claim4_setup_stores_wrong_position :
    (getCell checkersSetup (7, 0)).map Figure.position = some ((6 : Int), (0 : Int)) ∧
    (((6 : Int), (0 : Int)) : Pos) ≠ (((7 : Int), (0 : Int)) : Pos) := by
  refine ⟨by decide, by decide⟩

/-- C9: Board.check_move returns false (rather than faulting) when the source
cell is empty, and whenever the board's check rejects a move the controller's
move-handling branch reports failure and hands back the identical grid and
the same player, applying nothing. -/
theorem claim9_invalid_move_leaves_state_unchanged :
    (∀ (g : Grid) (s t : Pos), InB s → InB t → getCell g s = none →
      check_move g s t = false) ∧
    (∀ (check : Grid → Pos → Pos → Bool) (mover : Grid → Pos → Pos → Option Grid)
      (g : Grid) (player : Color) (s t : Pos), check g s t = false →
        gameMoveStep check mover g player s t = some (g, player, false)) := by
  constructor
  · intro g s t _ _ hempty
    rw [check_move]
    simp only [hempty]
  · intro check mover g player s t h
    rw [gameMoveStep, if_neg (by simp [h])]

/-- Witness for C9: a move from the empty cell (0, 0) of the empty grid is
rejected and the controller branch changes nothing. -/
theorem claim9_witness :
    check_move emptyGrid (0, 0) (1, 1) = false ∧
    gameMoveStep check_move make_move emptyGrid .white (0, 0) (1, 1) =
      some (emptyGrid, .white, false) :=
  ⟨claim9_invalid_move_leaves_state_unchanged.1 emptyGrid (0, 0) (1, 1)
    (by decide) (by decide) (by decide),
   claim9_invalid_move_leaves_state_unchanged.2 check_move make_move emptyGrid .white
    (0, 0) (1, 1) (by decide)⟩

/-- The four cells where ExtendedBoard.setup_board places checkers men. -/
def extendedMenCells : List Pos := [(5, 2), (5, 5), (2, 2), (2, 5)]

/-- C10: Board.check_move rejects any move whose source piece is a
CheckersFigure (its isinstance gate lists only the chess classes), so each of
the four checkers men the extended setup places can never move under the
chess/extended rules. -/
theorem claim10_checkers_men_frozen_on_extended_board :
    (∀ (g : Grid) (s t : Pos) (fig : Figure), InB s → InB t →
      getCell g s = some fig → fig.kind = .checkersFig → check_move g s t = false) ∧
    (∀ p ∈ extendedMenCells, ∀ t : Pos, InB t → check_move extendedSetup p t = false) := by
  have main : ∀ (g : Grid) (s t : Pos) (fig : Figure), InB s → InB t →
      getCell g s = some fig → fig.kind = .checkersFig → check_move g s t = false := by
    intro g s t fig _ _ hfig hk
    rw [check_move]
    simp only [hfig]
    simp [hk, chessKindB]
  refine ⟨main, ?_⟩
  intro p hp t ht
  fin_cases hp
  · exact main extendedSetup (5, 2) t ⟨.checkersFig, .white, (5, 2), false⟩
      (by decide) ht (by decide) rfl
  · exact main extendedSetup (5, 5) t ⟨.checkersFig, .white, (5, 5), false⟩
      (by decide) ht (by decide) rfl
  · exact main extendedSetup (2, 2) t ⟨.checkersFig, .black, (2, 2), false⟩
      (by decide) ht (by decide) rfl
  · exact main extendedSetup (2, 5) t ⟨.checkersFig, .black, (2, 5), false⟩
      (by decide) ht (by decide) rfl

/-- Witness for C10: the extended-setup man at (5, 2) cannot even make its
forward diagonal step. -/
theorem claim10_witness :
    check_move extendedSetup (5, 2) (4, 3) = false :=
  claim10_checkers_men_frozen_on_extended_board.2 (5, 2) (by decide) (4, 3) (by decide)

lemma diagCells_two (a1 b1 a2 b2 : Int) (h1 : (a2 - a1).natAbs = 2)
    (h2 : (b2 - b1).natAbs = 2) :
    diagCells a1 b1 a2 b2 = [((a1 + a2) / 2, (b1 + b2) / 2)] := by
  have hr : (a1 - a2).natAbs - 1 = 1 := by omega
  rw [diagCells, hr, show List.range 1 = [0] from rfl]
  simp only [List.map_cons, List.map_nil, List.cons.injEq, Prod.mk.injEq, and_true,
    Nat.cast_zero]
  constructor
  · split <;> omega
  · split <;> omega

lemma is_path_clear_two_diag_blocked (g : Grid) {a1 b1 a2 b2 : Int}
    (h1 : (a2 - a1).natAbs = 2) (h2 : (b2 - b1).natAbs = 2)
    (hmid : (getCell g ((a1 + a2) / 2, (b1 + b2) / 2)).isSome = true) :
    is_path_clear g a1 b1 a2 b2 = some false := by
  rw [is_path_clear, if_neg (by omega : ¬a1 = a2), if_neg (by omega : ¬b1 = b2),
    if_pos (by omega : (a1 - a2).natAbs = (b1 - b2).natAbs),
    diagCells_two a1 b1 a2 b2 h1 h2]
  obtain ⟨f, hf⟩ := Option.isSome_iff_exists.mp hmid
  simp [hf]

/-- C6: on the checkers board, a man's move with both absolute deltas exactly
2 and an occupied intermediate diagonal cell is accepted by check_move; and
make_move for such a jump empties the midpoint cell and (unless the jump
lands on the promotion row) leaves the mover at the destination with its
chain (kill) flag set. -/
theorem claim6_jump_capture_clears_midpoint_sets_flag (g : Grid) (s t : Pos) (fig : Figure)
    (hs : InB s) (ht : InB t) (hfig : getCell g s = some fig) (hk : fig.kind = .checkersFig)
    (hdr : (t.1 - s.1).natAbs = 2) (hdc : (t.2 - s.2).natAbs = 2)
    (hmid : (getCell g ((s.1 + t.1) / 2, (s.2 + t.2) / 2)).isSome = true) :
    checkers_check_move g s t = true ∧
    ∃ g1, checkers_make_move g s t = some g1 ∧
      getCell g1 ((s.1 + t.1) / 2, (s.2 + t.2) / 2) = none ∧
      (¬((fig.color = .white ∧ t.1 = 0) ∨ (fig.color = .black ∧ t.1 = 7)) →
        getCell g1 t = some ⟨.checkersFig, fig.color, t, true⟩) := by
  obtain ⟨sa, sb⟩ := s
  obtain ⟨ta, tb⟩ := t
  obtain ⟨fk, fc, fp, fl⟩ := fig
  simp only at hdr hdc hmid hk ⊢
  subst hk
  have hipc : is_path_clear g sa sb ta tb = some false :=
    is_path_clear_two_diag_blocked g hdr hdc hmid
  have hInBmid : InB ((sa + ta) / 2, (sb + tb) / 2) := by
    obtain ⟨u1, u2, u3, u4⟩ := hs
    obtain ⟨v1, v2, v3, v4⟩ := ht
    refine ⟨by omega, by omega, by omega, by omega⟩
  have hmid_ne_s : (((sa + ta) / 2, (sb + tb) / 2) : Pos) ≠ (sa, sb) := by
    intro h
    rw [Prod.mk.injEq] at h
    omega
  have hmid_ne_t : (((sa + ta) / 2, (sb + tb) / 2) : Pos) ≠ (ta, tb) := by
    intro h
    rw [Prod.mk.injEq] at h
    omega
  have ht_ne_s : ((ta, tb) : Pos) ≠ (sa, sb) := by
    intro h
    rw [Prod.mk.injEq] at h
    omega
  constructor
  · rw [checkers_check_move]
    simp [hfig, hdr, hdc, hipc, truthy]
  · have hcap : checkers_capture_step g ⟨Kind.checkersFig, fc, fp, fl⟩ (sa, sb) (ta, tb) =
        (setCellO g ((sa + ta) / 2, (sb + tb) / 2) none, ⟨Kind.checkersFig, fc, fp, true⟩) := by
      rw [checkers_capture_step, if_pos (show truthy (is_path_clear g sa sb ta tb) = false by
        rw [hipc]; rfl), if_pos rfl]
    have hrel_mid :
        getCell (checkers_relocate
          (setCellO g ((sa + ta) / 2, (sb + tb) / 2) none, ⟨Kind.checkersFig, fc, fp, true⟩)
          (sa, sb) (ta, tb)) ((sa + ta) / 2, (sb + tb) / 2) = none := by
      rw [checkers_relocate, getCell_setCellO, if_neg (fun hh => hmid_ne_s hh.2),
        getCell_setCellO, if_neg (fun hh => hmid_ne_t hh.2),
        getCell_setCellO, if_pos ⟨hInBmid, rfl⟩]
    have hrel_t :
        getCell (checkers_relocate
          (setCellO g ((sa + ta) / 2, (sb + tb) / 2) none, ⟨Kind.checkersFig, fc, fp, true⟩)
          (sa, sb) (ta, tb)) (ta, tb) = some ⟨Kind.checkersFig, fc, (ta, tb), true⟩ := by
      rw [checkers_relocate, getCell_setCellO, if_neg (fun hh => ht_ne_s hh.2),
        getCell_setCellO, if_pos ⟨ht, rfl⟩]
    by_cases hpromo : (fc = Color.white ∧ ta = 0) ∨ (fc = Color.black ∧ ta = 7)
    · refine ⟨setCellO (checkers_relocate
          (setCellO g ((sa + ta) / 2, (sb + tb) / 2) none, ⟨Kind.checkersFig, fc, fp, true⟩)
          (sa, sb) (ta, tb)) (ta, tb) (some ⟨Kind.bishop, fc, (ta, tb), false⟩), ?_, ?_, ?_⟩
      · rw [checkers_make_move]
        simp only [hfig, hcap]
        rw [if_pos hpromo]
      · rw [getCell_setCellO, if_neg (fun hh => hmid_ne_t hh.2)]
        exact hrel_mid
      · intro hno
        exact absurd hpromo hno
    · refine ⟨checkers_relocate
          (setCellO g ((sa + ta) / 2, (sb + tb) / 2) none, ⟨Kind.checkersFig, fc, fp, true⟩)
          (sa, sb) (ta, tb), ?_, hrel_mid, fun _ => hrel_t⟩
      rw [checkers_make_move]
      simp only [hfig, hcap]
      rw [if_neg hpromo]

/-- The concrete C6 grid: a white man at (2, 3), an enemy man at (3, 4),
cell (4, 5) empty. -/
def gridC6 : Grid :=
  setCellO (setCellO emptyGrid (2, 3) (some ⟨.checkersFig, .white, (2, 3), false⟩))
    (3, 4) (some ⟨.checkersFig, .black, (3, 4), false⟩)

/-- The C6 grid after the jump (2, 3) → (4, 5). -/
def gridC6After : Grid := (checkers_make_move gridC6 (2, 3) (4, 5)).getD emptyGrid

/-- Witness for C6: the jump of the claim's concrete scenario is accepted,
and afterwards (3, 4) is empty and the mover sits at (4, 5) with its chain
flag set. -/
theorem claim6_witness :
    checkers_check_move gridC6 (2, 3) (4, 5) = true ∧
    getCell gridC6After (3, 4) = none ∧
    getCell gridC6After (4, 5) = some ⟨.checkersFig, .white, (4, 5), true⟩ :=
  ⟨(claim6_jump_capture_clears_midpoint_sets_flag gridC6 (2, 3) (4, 5)
      ⟨.checkersFig, .white, (2, 3), false⟩ (by decide) (by decide) (by decide) rfl
      (by decide) (by decide) (by decide)).1,
    by decide, by decide⟩

/-- C8: on any board with a white King at (0, 4), a white Rook at (0, 7) and
(0, 5), (0, 6) empty, if_rock_possible('white') is true, and rock('white')
puts the King's piece at (0, 6) and the Rook's piece at (0, 5), emptying
(0, 4) and (0, 7). -/
theorem claim8_kingside_castle (g : Grid) (k r : Figure)
    (hk : getCell g (0, 4) = some k) (hkk : k.kind = .king) (hkc : k.color = .white)
    (hr : getCell g (0, 7) = some r) (hrk : r.kind = .rook) (hrc : r.color = .white)
    (h5 : getCell g (0, 5) = none) (h6 : getCell g (0, 6) = none) :
    if_rock_possible g .white = true ∧
    getCell (rock g .white) (0, 6) = some k ∧
    getCell (rock g .white) (0, 5) = some r ∧
    getCell (rock g .white) (0, 4) = none ∧
    getCell (rock g .white) (0, 7) = none := by
  have hpath : is_path_clear g 0 4 0 7 = some true := by
    rw [is_path_clear, if_pos rfl,
      show intRange (min (4 : Int) 7 + 1) (max (4 : Int) 7) = [5, 6] from by decide]
    simp [h5, h6]
  refine ⟨?_, ?_, ?_, ?_, ?_⟩
  · rw [if_rock_possible]
    simp only [hk, hr]
    simp [kingKindB, hkk, hkc, hrk, hrc, hpath, truthy]
  · rw [rock]
    simp only [hk]
    simp [getCell_setCellO, Prod.ext_iff]
  · rw [rock]
    simp only [hk]
    simp [getCell_setCellO, Prod.ext_iff, hr]
  · rw [rock]
    simp only [hk]
    simp [getCell_setCellO, Prod.ext_iff]
  · rw [rock]
    simp only [hk]
    simp [getCell_setCellO, Prod.ext_iff]

/-- The concrete castling grid: a lone white King at (0, 4) and white Rook
at (0, 7). -/
def gridC8 : Grid :=
  setCellO (setCellO emptyGrid (0, 4) (some ⟨.king, .white, (0, 4), false⟩))
    (0, 7) (some ⟨.rook, .white, (0, 7), false⟩)

/-- Witness for C8: the concrete castle on `gridC8`. -/
theorem claim8_witness :
    if_rock_possible gridC8 .white = true ∧
    getCell (rock gridC8 .white) (0, 6) = some ⟨.king, .white, (0, 4), false⟩ ∧
    getCell (rock gridC8 .white) (0, 5) = some ⟨.rook, .white, (0, 7), false⟩ ∧
    getCell (rock gridC8 .white) (0, 4) = none ∧
    getCell (rock gridC8 .white) (0, 7) = none :=
  claim8_kingside_castle gridC8 ⟨.king, .white, (0, 4), false⟩ ⟨.rook, .white, (0, 7), false⟩
    (by decide) rfl rfl (by decide) rfl rfl (by decide) (by decide)

/-- Cell p holds a checkers man that has at least one check_move-accepted
pseudo-move on board g. -/
def manMoveAtB (g : Grid) (p : Pos) : Bool :=
  ((getCell g p).map (fun f =>
    decide (f.kind = Kind.checkersFig) &&
      (get_possible_moves f).any (fun m => checkers_check_move g p m))).getD false

/-- Cell p holds a checkers man of color c. -/
def manColorAtB (g : Grid) (c : Color) (p : Pos) : Bool :=
  ((getCell g p).map (fun f => decide (f.kind = Kind.checkersFig ∧ f.color = c))).getD false

/-- Every piece on the board stores an in-bounds position (the domain on
which the embedding's cell reads coincide with Python list indexing). -/
def positionsInBoundsB (g : Grid) : Bool :=
  cellList.all (fun p =>
    match getCell g p with
    | some f => inBoundsB f.position
    | none => true)

lemma checkersGameOverScan_eq (g : Grid) (cells : List Pos) (b w : Bool) :
    checkersGameOverScan g cells b w =
      (!(cells.any (manMoveAtB g)) &&
        !((b || cells.any (manColorAtB g .black)) &&
          (w || cells.any (manColorAtB g .white)))) := by
  induction cells generalizing b w with
  | nil => simp [checkersGameOverScan]
  | cons p rest ih =>
    rw [checkersGameOverScan]
    cases hc : getCell g p with
    | none =>
      dsimp only
      rw [ih]
      simp [List.any_cons, manMoveAtB, manColorAtB, hc]
    | some f =>
      dsimp only
      by_cases hk : f.kind = Kind.checkersFig
      · rw [if_pos hk]
        by_cases hmv : (get_possible_moves f).any (fun m => checkers_check_move g p m)
        · rw [if_pos hmv]
          have hh : manMoveAtB g p = true := by rw [manMoveAtB, hc]; simp [hk, hmv]
          simp [List.any_cons, hh]
        · rw [if_neg hmv, ih]
          have h1 : manMoveAtB g p = false := by rw [manMoveAtB, hc]; simp [hk, hmv]
          have h2 : manColorAtB g Color.black p = decide (f.color = Color.black) := by
            rw [manColorAtB, hc]; simp [hk]
          have h3 : manColorAtB g Color.white p = decide (f.color = Color.white) := by
            rw [manColorAtB, hc]; simp [hk]
          simp only [List.any_cons, h1, h2, h3, Bool.false_or]
          rw [Bool.or_assoc, Bool.or_assoc]
      · rw [if_neg hk, ih]
        have h1 : manMoveAtB g p = false := by rw [manMoveAtB, hc]; simp [hk]
        have h2 : manColorAtB g Color.black p = false := by rw [manColorAtB, hc]; simp [hk]
        have h3 : manColorAtB g Color.white p = false := by rw [manColorAtB, hc]; simp [hk]
        simp [List.any_cons, h1, h2, h3]

/-- C7 (amended): CheckersBoard.is_game_over returns true iff no man on the
board has an accepted pseudo-move AND at least one color has no men left;
one color having zero men is necessary but, against the claim, not
sufficient (any accepted move of the surviving side returns false first). -/
theorem claim7_game_over_requires_no_moves_and_missing_color (g : Grid)
    (hpos : positionsInBoundsB g = true) :
    checkers_is_game_over g =
      (!(cellList.any (manMoveAtB g)) &&
        (!(cellList.any (manColorAtB g .black)) || !(cellList.any (manColorAtB g .white)))) := by
  rw [checkers_is_game_over, checkersGameOverScan_eq]
  simp [Bool.not_and]

/-- The C7 counterexample grid: a single white man at (2, 3) and no black
men at all. -/
def gridC7 : Grid :=
  setCellO emptyGrid (2, 3) (some ⟨.checkersFig, .white, (2, 3), false⟩)

/-- C7 counterexample: black has zero men on `gridC7`, yet is_game_over is
false (the white man still has an accepted move), refuting "one color having
zero men remaining by itself suffices for game over". -/
theorem claim7_counterexample :
    cellList.any (manColorAtB gridC7 .black) = false ∧
    checkers_is_game_over gridC7 = false := by
  refine ⟨by decide, by decide⟩

/-- Witness for C7 (amended): on the freshly set up checkers board the
equation evaluates on both sides to false (moves exist and both colors have
men). -/
theorem claim7_witness : checkers_is_game_over checkersSetup = false := by
  rw [claim7_game_over_requires_no_moves_and_missing_color checkersSetup (by decide)]
  decide

/-- Cell p holds a piece of the kinds Board.is_game_over scans. -/
def scannedAtB (g : Grid) (p : Pos) : Bool :=
  ((getCell g p).map (fun f => scannedKindB f.kind)).getD false

/-- Cell p holds a white piece of the scanned kinds. -/
def whiteScannedAtB (g : Grid) (p : Pos) : Bool :=
  ((getCell g p).map (fun f => scannedKindB f.kind && decide (f.color = Color.white))).getD false

/-- Cell p holds a non-black King or Snake (what fills the white-king slot of
the king-locating scan). -/
def whiteKingAtB (g : Grid) (p : Pos) : Bool :=
  ((getCell g p).map (fun f => kingKindB f.kind && !(decide (f.color = Color.black)))).getD false

lemma whiteKingAtB_to_whiteScannedAtB (g : Grid) (p : Pos)
    (h : whiteKingAtB g p = true) : whiteScannedAtB g p = true := by
  cases hc : getCell g p with
  | none => rw [whiteKingAtB, hc] at h; exact absurd h (by simp)
  | some f =>
    rw [whiteKingAtB, hc] at h
    rw [whiteScannedAtB, hc]
    obtain ⟨fk, fc, fp, fl⟩ := f
    cases fk <;> cases fc <;> simp_all [kingKindB, scannedKindB]

lemma whiteScannedAtB_to_scannedAtB (g : Grid) (p : Pos)
    (h : whiteScannedAtB g p = true) : scannedAtB g p = true := by
  cases hc : getCell g p with
  | none => rw [whiteScannedAtB, hc] at h; exact absurd h (by simp)
  | some f =>
    rw [whiteScannedAtB, hc] at h
    rw [scannedAtB, hc]
    simp only [Option.map_some', Option.getD_some] at h ⊢
    simp only [Bool.and_eq_true] at h
    exact h.1

lemma any_mono {f h : Pos → Bool} (cells : List Pos) (hfh : ∀ p, f p = true → h p = true)
    (hf : cells.any f = true) : cells.any h = true := by
  rw [List.any_eq_true] at hf ⊢
  obtain ⟨p, hp, hfp⟩ := hf
  exact ⟨p, hp, hfh p hfp⟩

lemma riskScan_none_none (g : Grid) (cells : List Pos) :
    ∀ rb rw : List Pos, riskScan g none none cells rb rw =
      if cells.any (scannedAtB g) then none else some (rb, rw) := by
  induction cells with
  | nil => intro rb rw; simp [riskScan]
  | cons p rest ih =>
    intro rb rw
    rw [riskScan]
    cases hc : getCell g p with
    | none =>
      dsimp only
      rw [ih]
      have hh : scannedAtB g p = false := by rw [scannedAtB, hc]; rfl
      rw [List.any_cons, hh, Bool.false_or]
    | some f =>
      dsimp only
      by_cases hk : scannedKindB f.kind
      · rw [if_pos hk]
        have hh : scannedAtB g p = true := by rw [scannedAtB, hc]; simp [hk]
        have hany : (p :: rest).any (scannedAtB g) = true := by simp [List.any_cons, hh]
        rw [if_pos hany]
        split <;> rfl
      · rw [if_neg hk, ih]
        have hh : scannedAtB g p = false := by rw [scannedAtB, hc]; simp [hk]
        rw [List.any_cons, hh, Bool.false_or]

lemma riskScan_wk_some (g : Grid) (k : Pos) (cells : List Pos) :
    ∀ rb rw : List Pos, cells.any (whiteScannedAtB g) = true →
      riskScan g none (some k) cells rb rw = none := by
  induction cells with
  | nil => intro rb rw h; exact absurd h (by simp)
  | cons p rest ih =>
    intro rb rw h
    rw [riskScan]
    cases hc : getCell g p with
    | none =>
      dsimp only
      have h' : rest.any (whiteScannedAtB g) = true := by
        rw [List.any_cons] at h
        have hh : whiteScannedAtB g p = false := by rw [whiteScannedAtB, hc]; rfl
        rw [hh] at h
        simpa using h
      exact ih _ _ h'
    | some f =>
      dsimp only
      by_cases hk : scannedKindB f.kind
      · rw [if_pos hk]
        by_cases hcol : f.color = Color.white
        · rw [if_pos hcol]
        · rw [if_neg hcol]
          have h' : rest.any (whiteScannedAtB g) = true := by
            rw [List.any_cons] at h
            have hh : whiteScannedAtB g p = false := by
              rw [whiteScannedAtB, hc]
              simp [hcol]
            rw [hh] at h
            simpa using h
          split
          · exact ih _ _ h'
          · exact ih _ _ h'
      · rw [if_neg hk]
        have h' : rest.any (whiteScannedAtB g) = true := by
          rw [List.any_cons] at h
          have hh : whiteScannedAtB g p = false := by
            rw [whiteScannedAtB, hc]
            simp [hk]
          rw [hh] at h
          simpa using h
        exact ih _ _ h'

lemma findKingsScan_white (g : Grid) (cells : List Pos) :
    ∀ bk wk : Option Pos, (findKingsScan g cells bk wk).2 = wk ∨
      cells.any (whiteKingAtB g) = true := by
  induction cells with
  | nil => intro bk wk; exact Or.inl rfl
  | cons p rest ih =>
    intro bk wk
    rw [findKingsScan]
    cases hc : getCell g p with
    | none =>
      dsimp only
      rcases ih bk wk with h | h
      · exact Or.inl h
      · exact Or.inr (by simp [List.any_cons, h])
    | some f =>
      dsimp only
      by_cases hk : kingKindB f.kind
      · rw [if_pos hk]
        by_cases hcol : f.color = Color.black
        · rw [if_pos hcol]
          rcases ih (some p) wk with h | h
          · exact Or.inl h
          · exact Or.inr (by simp [List.any_cons, h])
        · rw [if_neg hcol]
          refine Or.inr ?_
          have hh : whiteKingAtB g p = true := by
            rw [whiteKingAtB, hc]
            simp [hk, hcol]
          simp [List.any_cons, hh]
      · rw [if_neg hk]
        rcases ih bk wk with h | h
        · exact Or.inl h
        · exact Or.inr (by simp [List.any_cons, h])

/-- C5 (amended): when the king-locating scan records no black king,
Board.is_game_over faults (the source subscripts None) whenever any piece of
the scanned kinds is on the board of either color; only a board with no
scanned piece at all returns normally, and then reports no game over. -/
theorem claim5_missing_king_faults_on_scanned_piece (g : Grid)
    (hb : (findKingsScan g cellList none none).1 = none) :
    is_game_over g = if cellList.any (scannedAtB g) then none else some false := by
  rw [is_game_over]
  cases hwk : (findKingsScan g cellList none none).2 with
  | none =>
    simp only [hb, hwk, riskScan_none_none]
    by_cases hsc : cellList.any (scannedAtB g)
    · simp [hsc]
    · simp [hsc, is_game_over_white]
  | some k =>
    have hany : cellList.any (whiteKingAtB g) = true := by
      rcases findKingsScan_white g cellList none none with h | h
      · rw [h] at hwk; exact Option.noConfusion hwk
      · exact h
    have hws : cellList.any (whiteScannedAtB g) = true :=
      any_mono cellList (whiteKingAtB_to_whiteScannedAtB g) hany
    have hsc : cellList.any (scannedAtB g) = true :=
      any_mono cellList (whiteScannedAtB_to_scannedAtB g) hws
    simp only [hb, hwk, riskScan_wk_some g k cellList [] [] hws]
    simp [hsc]

/-- The C5 counterexample grid: one white pawn, no kings at all. -/
def gridC5 : Grid :=
  setCellO emptyGrid (3, 3) (some ⟨.pawn, .white, (3, 3), false⟩)

/-- C5 counterexample: the black king is absent on `gridC5`, and
is_game_over faults (None) instead of returning normally as the claim
promises — the scan subscripts the missing king's position at the white
pawn. -/
theorem claim5_counterexample :
    (findKingsScan gridC5 cellList none none).1 = none ∧
    is_game_over gridC5 = none := by
  refine ⟨by decide, by decide⟩

/-- Witness for C5 (amended): on the empty board the king is absent, no
scanned piece exists, and the call returns normally with no game over. -/
theorem claim5_witness : is_game_over emptyGrid = some false := by
  have h := claim5_missing_king_faults_on_scanned_piece emptyGrid (by decide)
  rw [show cellList.any (scannedAtB emptyGrid) = false from by decide] at h
  simpa using h

end OOPChess
